import Mathlib

/-!
# Verification of the election-poll classification / merge / reconciliation pipeline

Shallow embedding of the core pipeline of the `election_forecast` repository:

* `format_polls` (src/process_polls.py) and `format_polling`
  (src/process_polling.py): grouping raw per-response rows into per-question
  records, the latter after an election-year date-window filter;
* `process_polls_isValid` — two source variants: the one in
  src/process_polling.py (verdicts concatenated unchecked) and the one in
  src/process_polls.py (per-chunk JSON parsing with partial failure handling);
* `merge_polls_with_validity` (src/process_polling.py): left join of the raw
  rows with the verdicts followed by dropping null-verdict rows;
* `compare_llm_with_final` (src/polling_isValid_testing.py): inner join of two
  labeled datasets on the shared descriptive columns, agreement rate and
  disagreement report.

Dates are embedded as day numbers (integers): `pandas` datetime comparison
corresponds to integer comparison and `timedelta(days=1)` to `+ 1`.
The external classification service (`call_gemini_flash`) is abstracted as a
function parameter; a `none` result models a response that fails to parse
(`json.JSONDecodeError`), and an `Option`-valued run result models a Python
run that either returns or dies with an uncaught exception (`none`).
-/

namespace ElectionForecast

/-- One raw CSV row: one (question, response) pair, with dates as day
numbers.  Columns: QuestionID, QuestionTxt, BegDate, EndDate, RespTxt,
RespPct (the percentage stays a string: it may be the `*` sentinel). -/
structure RawRow where
  questionId : String
  questionText : String
  begDate : Int
  endDate : Int
  respTxt : String
  respPct : String
deriving DecidableEq

/-- One parsed classification verdict: `{questionId, isValid}`. -/
structure Verdict where
  questionId : String
  isValid : Bool
deriving DecidableEq

/-- First-occurrence deduplication, the order `pandas.Series.unique`
returns values in (`df['QuestionID'].unique()`). -/
def uniqs : List String → List String
  | [] => []
  | a :: l => a :: uniqs (l.filter (fun b => b != a))
termination_by l => l.length
decreasing_by
  simp only [List.length_cons]
  exact Nat.lt_succ_of_le (l.length_filter_le _)

/-- The `formatted_data[i:i+batch_size]` slicing loop
(`for i in range(0, len(formatted_data), batch_size)`), shared by
src/process_polling.py:535, src/process_polls.py:150 and
src/polling.py:274. -/
def chunksOf (b : Nat) : List α → List (List α)
  | [] => []
  | a :: l => (a :: l.take (b - 1)) :: chunksOf b (l.drop (b - 1))
termination_by l => l.length
decreasing_by
  simp only [List.length_cons, List.length_drop]
  omega

/-- Grouping core shared by `format_polls` and `format_polling`: for each
QuestionID in first-appearance order, the sublist of rows carrying it
(`df[df['QuestionID'] == question_id]`). -/
def groupRowsBy (rows : List RawRow) : List (String × List RawRow) :=
  (uniqs (rows.map (·.questionId))).map
    (fun q => (q, rows.filter (fun r => r.questionId == q)))

/-- The `question_data['QuestionTxt'].iloc[0]` lookup: the text of the first row of a
group (groups produced by `groupRowsBy` are never empty, so the default
is never taken). -/
def firstText : List RawRow → String
  | [] => ""
  | r :: _ => r.questionText

/-- A per-question record as built by `format_polls`
(src/process_polls.py:26-50): QuestionID, QuestionText, BegDate, EndDate
from the first row, plus the ordered (RespTxt, RespPct) pairs. -/
structure PollQuestion where
  questionId : String
  questionText : String
  begDate : Int
  endDate : Int
  responses : List (String × String)
deriving DecidableEq

/-- The `question_data['BegDate'].iloc[0]` lookup (default never taken on the
nonempty groups `groupRowsBy` yields). -/
def firstBegDate : List RawRow → Int
  | [] => 0
  | r :: _ => r.begDate

/-- The `question_data['EndDate'].iloc[0]` lookup (default never taken on the
nonempty groups `groupRowsBy` yields). -/
def firstEndDate : List RawRow → Int
  | [] => 0
  | r :: _ => r.endDate

/-- Embedding of `format_polls` (src/process_polls.py:9-50), minus the CSV reading:
group rows by QuestionID in first-appearance order, taking text and dates
from the first row of each group. -/
def format_polls (rows : List RawRow) : List PollQuestion :=
  (groupRowsBy rows).map (fun g =>
    { questionId := g.1
      questionText := firstText g.2
      begDate := firstBegDate g.2
      endDate := firstEndDate g.2
      responses := g.2.map (fun r => (r.respTxt, r.respPct)) })

/-! ## The date-window filter of `format_polling` (src/process_polling.py) -/

/-- Gregorian leap-year test, used to turn the `'YYYY-MM-DD'` strings of
the election-date dictionary into day numbers. -/
def isLeap (y : Nat) : Bool :=
  (y % 4 == 0 && y % 100 != 0) || y % 400 == 0

/-- Days in the months strictly before month `m` of a year (Gregorian),
`leap` telling whether February has 29 days. -/
def daysBeforeMonth (leap : Bool) (m : Nat) : Nat :=
  let base :=
    match m with
    | 1 => 0 | 2 => 31 | 3 => 59 | 4 => 90 | 5 => 120 | 6 => 151
    | 7 => 181 | 8 => 212 | 9 => 243 | 10 => 273 | 11 => 304 | _ => 334
  if leap && m ≥ 3 then base + 1 else base

/-- Day number of the Gregorian date `y-m-d` (days since the epoch of the
proleptic Gregorian calendar); monotone in chronological order, so
`pandas` datetime comparison becomes integer comparison and
`timedelta(days=1)` becomes `+ 1`. -/
def toDay (y m d : Nat) : Int :=
  365 * ((y : Int) - 1) + ((y : Int) - 1) / 4 - ((y : Int) - 1) / 100
    + ((y : Int) - 1) / 400 + (daysBeforeMonth (isLeap y) m : Int) + (d : Int)

/-- The `election_dates_dictionary` (src/process_polling.py:33-42), with each
`'YYYY-MM-DD'` string parsed to its day number; `none` models the
`KeyError` a missing year would raise. -/
def election_dates_dictionary : Nat → Option Int
  | 1936 => some (toDay 1936 11 3) | 1940 => some (toDay 1940 11 5)
  | 1944 => some (toDay 1944 11 7) | 1948 => some (toDay 1948 11 2)
  | 1952 => some (toDay 1952 11 4) | 1956 => some (toDay 1956 11 6)
  | 1960 => some (toDay 1960 11 8) | 1964 => some (toDay 1964 11 3)
  | 1968 => some (toDay 1968 11 5) | 1972 => some (toDay 1972 11 7)
  | 1976 => some (toDay 1976 11 2) | 1980 => some (toDay 1980 11 4)
  | 1984 => some (toDay 1984 11 6) | 1988 => some (toDay 1988 11 8)
  | 1992 => some (toDay 1992 11 3) | 1996 => some (toDay 1996 11 5)
  | 2000 => some (toDay 2000 11 7) | 2004 => some (toDay 2004 11 2)
  | 2008 => some (toDay 2008 11 4) | 2012 => some (toDay 2012 11 6)
  | 2016 => some (toDay 2016 11 8) | 2020 => some (toDay 2020 11 3)
  | 2024 => some (toDay 2024 11 5)
  | _ => none

/-- The `start_date` bound (src/process_polling.py:49): the day after the previous
election, absent for 1936. -/
def start_date (year : Nat) : Option Int :=
  if year ≠ 1936 then (election_dates_dictionary (year - 4)).map (· + 1)
  else none

/-- The `end_date` bound (src/process_polling.py:50): the day before the current
election, absent for 2024. -/
def end_date (year : Nat) : Option Int :=
  if year ≠ 2024 then (election_dates_dictionary year).map (· - 1)
  else none

/-- The date filter of `format_polling` (src/process_polling.py:52-58):
`if start_date and end_date: ... elif start_date: ... elif end_date: ...`
(a datetime is always truthy in Python, so the branch taken depends only
on which bounds exist). -/
def windowFilter (rows : List RawRow) (year : Nat) : List RawRow :=
  match start_date year, end_date year with
  | some s, some e => rows.filter (fun r => s ≤ r.begDate && r.endDate ≤ e)
  | some s, none => rows.filter (fun r => s ≤ r.begDate)
  | none, some e => rows.filter (fun r => r.endDate ≤ e)
  | none, none => rows

/-- The sort key of `df.sort_values(['BegDate', 'EndDate', 'QuestionID'])`
(src/process_polling.py:27). -/
def rowLe (a b : RawRow) : Bool :=
  a.begDate < b.begDate
    || (a.begDate == b.begDate
        && (a.endDate < b.endDate
            || (a.endDate == b.endDate && a.questionId ≤ b.questionId)))

/-- Embedding of `df.sort_values(['BegDate', 'EndDate', 'QuestionID'])`
(src/process_polling.py:27) as a merge sort on the same key
(pandas' default quicksort leaves the order of fully-tied rows
unspecified; every claim proved below is insensitive to tie order). -/
def sortRows (rows : List RawRow) : List RawRow :=
  rows.mergeSort rowLe

/-- A per-question record as built by `format_polling`
(src/process_polling.py:67-76): like `PollQuestion` but without dates. -/
structure PollingQuestion where
  questionId : String
  questionText : String
  responses : List (String × String)
deriving DecidableEq

/-- Embedding of `format_polling` (src/process_polling.py:11-82), minus the CSV
reading: sort by (BegDate, EndDate, QuestionID), filter to the election
window of `year`, then group by QuestionID in first-appearance order.
The source sorts before filtering; the two commute on row sets, and the
embedding keeps the source's filter-after-sort composition. -/
def format_polling (rows : List RawRow) (year : Nat) : List PollingQuestion :=
  (groupRowsBy (windowFilter (sortRows rows) year)).map (fun g =>
    { questionId := g.1
      questionText := firstText g.2
      responses := g.2.map (fun r => (r.respTxt, r.respPct)) })

/-! ## The batch classifier, variant of src/process_polling.py

`call_gemini_flash` (src/llm_calls.py) already returns the parsed JSON
(`json.loads(response.text)`), so the service is abstracted as a function
from a chunk to a list of verdicts; `process_polls_isValid`
(src/process_polling.py:514-553) just extends `responses` with each
chunk's result, with no try/except and no provenance check. -/

/-- Embedding of `process_polls_isValid` (src/process_polling.py:514-553): iterate over
`formatted_data` in `batch_size` chunks, call the service on each chunk
and concatenate the returned verdicts (`responses.extend(response)`). -/
def process_polls_isValid_flash (formatted : List PollingQuestion)
    (batchSize : Nat) (service : List PollingQuestion → List Verdict) :
    List Verdict :=
  ((chunksOf batchSize formatted).map service).flatten

/-! ## The batch classifier, variant of src/process_polls.py

Here the service (`call_gemini_flash` of the missing `common` module)
returns raw text and the caller parses it: `json.loads(response)` inside
a `try` that catches only `json.JSONDecodeError`.  A service result is
embedded post-parse: `none` is a response whose JSON parsing fails, and a
parsed verdict object may miss either field (a missing key raises an
uncaught `KeyError`). -/

/-- One parsed verdict object of a chunk response, each field possibly
missing from the JSON object. -/
structure RawVerdict where
  questionId : Option String
  isValid : Option Bool
deriving DecidableEq

/-- The per-verdict body of the chunk loop (src/process_polls.py:168-171):
look up `poll_result["questionId"]` (uncaught `KeyError` if missing), find
the poll of the batch with that QuestionID (uncaught `StopIteration` if
none), read `poll_result["isValid"]` (uncaught `KeyError` if missing) and
append the poll together with its verdict.  `none` models the run dying
with an uncaught exception. -/
def resolveVerdicts (batch : List PollQuestion) :
    List RawVerdict → Option (List (PollQuestion × Bool))
  | [] => some []
  | v :: vs =>
    match v.questionId with
    | none => none
    | some qid =>
      match batch.find? (fun p => p.questionId == qid) with
      | none => none
      | some poll =>
        match v.isValid with
        | none => none
        | some b => (resolveVerdicts batch vs).map (fun rest => (poll, b) :: rest)

/-- The body of the chunk loop of `process_polls_isValid`
(src/process_polls.py:150-173): a run already dead stays dead; a chunk
whose response fails to parse (`service batch = none`) is skipped (the
`except json.JSONDecodeError` branch only prints); a chunk whose verdicts
fail to resolve kills the run; otherwise the resolved polls are appended
in order. -/
def processChunkStep
    (service : List PollQuestion → Option (List RawVerdict))
    (acc : Option (List (PollQuestion × Bool))) (batch : List PollQuestion) :
    Option (List (PollQuestion × Bool)) :=
  match acc with
  | none => none
  | some polls =>
    match service batch with
    | none => some polls
    | some raws =>
      match resolveVerdicts batch raws with
      | none => none
      | some resolved => some (polls ++ resolved)

/-- Embedding of `process_polls_isValid` (src/process_polls.py:129-182), minus prompt
building and CSV writing: fold the chunk loop over the `batch_size`
chunks of the formatted data, starting from an empty `processed_polls`
list. -/
def process_polls_isValid_common (formatted : List PollQuestion)
    (batchSize : Nat)
    (service : List PollQuestion → Option (List RawVerdict)) :
    Option (List (PollQuestion × Bool)) :=
  (chunksOf batchSize formatted).foldl (processChunkStep service) (some [])

/-! ## `merge_polls_with_validity` (src/process_polling.py:556-585) -/

/-- The pandas left join
`df.merge(processed_df, left_on='QuestionID', right_on='questionId',
how='left')` (src/process_polling.py:572) at row level: each left row is
paired with every matching verdict, or with `none` (the NaN fill) when no
verdict matches. -/
def leftJoinValidity (rows : List RawRow) (verdicts : List Verdict) :
    List (RawRow × Option Bool) :=
  rows.flatMap (fun r =>
    match verdicts.filter (fun v => v.questionId == r.questionId) with
    | [] => [(r, none)]
    | ms => ms.map (fun v => (r, some v.isValid)))

/-- Embedding of `merge_polls_with_validity` (src/process_polling.py:556-585), minus
the CSV I/O: left join on QuestionID, then
`merged_df.dropna(subset=['isValid'])` — every row whose verdict is null
is removed.  Each output element is an unchanged input row paired with
its verdict (the helper `questionId` join column being dropped
afterwards). -/
def merge_polls_with_validity (rows : List RawRow) (verdicts : List Verdict) :
    List (RawRow × Option Bool) :=
  (leftJoinValidity rows verdicts).filter (fun p => p.2.isSome)

/-! ## `compare_llm_with_final` (src/polling_isValid_testing.py) -/

/-- One row of a labeled dataset (`*_isvalid_llm.csv` /
`*_isvalid_final.csv`): the shared descriptive columns plus the side's
`isValid`.  `meta` stands for the remaining join columns (QuestionNote,
SubPopulation, ReleaseDate, ..., StudyNote), which only ever take part in
byte-for-byte equality. -/
structure LabeledRow where
  questionId : String
  questionText : String
  respTxt : String
  respPct : String
  meta : String
  isValid : Bool
deriving DecidableEq

/-- Equality on all shared (non-verdict) columns, the `on=` list of the
`pd.merge` call (src/polling_isValid_testing.py:37). -/
def sharedKeysEq (a b : LabeledRow) : Bool :=
  a.questionId == b.questionId && a.questionText == b.questionText
    && a.respTxt == b.respTxt && a.respPct == b.respPct && a.meta == b.meta

/-- A row of the inner-joined dataframe: the shared columns plus
`isValid_llm` and `isValid_final`. -/
structure JoinedRow where
  questionId : String
  questionText : String
  respTxt : String
  respPct : String
  meta : String
  isValidLlm : Bool
  isValidFinal : Bool
deriving DecidableEq

/-- The inner join `pd.merge(llm_df, final_df, on=[...shared columns...])`
(src/polling_isValid_testing.py:37): the inner join, one output row per
key-equal pair.  The preceding `sort_values('QuestionID')` calls only
reorder rows, with tie order unspecified by pandas (quicksort); the
embedding keeps input order, and the claims proved below are stated so
that they do not depend on it. -/
def innerJoinShared (llm final : List LabeledRow) : List JoinedRow :=
  llm.flatMap (fun a =>
    (final.filter (fun b => sharedKeysEq a b)).map (fun b =>
      { questionId := a.questionId
        questionText := a.questionText
        respTxt := a.respTxt
        respPct := a.respPct
        meta := a.meta
        isValidLlm := a.isValid
        isValidFinal := b.isValid }))

/-- Whether the first verdicts of the two sides agree for question `q`:
`groupby('QuestionID')['isValid_llm'].first()` compared with
`...['isValid_final'].first()` (src/polling_isValid_testing.py:68). -/
def firstVerdictsAgree (merged : List JoinedRow) (q : String) : Bool :=
  match merged.filter (fun r => r.questionId == q) with
  | [] => false
  | r :: _ => r.isValidLlm == r.isValidFinal

/-- The sum of the groupby comparison
(src/polling_isValid_testing.py:68): the number of distinct QuestionIDs
whose first verdicts of the two sides agree. -/
def correctPredictions (merged : List JoinedRow) : Nat :=
  ((uniqs (merged.map (·.questionId))).filter (firstVerdictsAgree merged)).length

/-- The count `merged_df['QuestionID'].nunique()`
(src/polling_isValid_testing.py:67). -/
def totalQuestions (merged : List JoinedRow) : Nat :=
  (uniqs (merged.map (·.questionId))).length

/-- The selection `merged_df[merged_df['isValid_llm'] != merged_df['isValid_final']]`
(src/polling_isValid_testing.py:40): the disagreement rows. -/
def disagreementRows (merged : List JoinedRow) : List JoinedRow :=
  merged.filter (fun r => r.isValidLlm != r.isValidFinal)

/-- The reconciliation report of `compare_llm_with_final`: success rate,
question count, correct-prediction count and the disagreement rows.
`successRate` is an `Option` because the source's rate is a numpy float
that can be `nan`: `correct_predictions` is a numpy integer
(`Series.sum()` at src/polling_isValid_testing.py:68), so dividing it by
a zero `total_questions` emits a RuntimeWarning and evaluates to `nan`
instead of raising; ℚ has no `nan`, so that value is embedded as
`none`. -/
structure CompareResult where
  successRate : Option ℚ
  totalQuestions : Nat
  correctPredictions : Nat
  disagreements : List JoinedRow
deriving DecidableEq

/-- Embedding of `compare_llm_with_final` (src/polling_isValid_testing.py:5-77) for one
LLM/final file pair, minus file I/O: inner-join the two datasets on the
shared columns, count agreeing questions by their first verdicts, and
compute `success_rate = (correct_predictions / total_questions) * 100`.
The function always completes: with `total_questions = 0` the numpy
division produces the `nan` rate (embedded as `none`) and the run writes
it out normally rather than failing. -/
def compare_llm_with_final (llm final : List LabeledRow) : CompareResult :=
  { successRate :=
      if totalQuestions (innerJoinShared llm final) = 0 then none
      else some
        (((correctPredictions (innerJoinShared llm final) : ℚ)
          / (totalQuestions (innerJoinShared llm final) : ℚ)) * 100)
    totalQuestions := totalQuestions (innerJoinShared llm final)
    correctPredictions := correctPredictions (innerJoinShared llm final)
    disagreements := disagreementRows (innerJoinShared llm final) }

/-! ## Flattening (modelled from the spec) -/

/-- Modelled from the spec: "flattening each record back to one row per
response" (§8 Round trip) — the inverse direction of the grouping, which
the repository has no single function for.  One output tuple
(questionId, questionText, responseText, responsePercentage) per response
of each record. -/
def flattenQuestions (qs : List PollQuestion) :
    List (String × String × String × String) :=
  qs.flatMap (fun q =>
    q.responses.map (fun resp => (q.questionId, q.questionText, resp.1, resp.2)))

/-- The (questionId, questionText, responseText, responsePercentage)
projection of a raw row, the tuple the round-trip property compares. -/
def rowTuple (r : RawRow) : String × String × String × String :=
  (r.questionId, r.questionText, r.respTxt, r.respPct)

/-! ## Helper lemmas: `uniqs` and `groupRowsBy` -/

theorem uniqs_cons (a : String) (l : List String) :
    uniqs (a :: l) = a :: uniqs (l.filter (fun b => b != a)) := by
  rw [uniqs]

theorem mem_uniqs {a : String} : ∀ {l : List String}, a ∈ uniqs l ↔ a ∈ l
  | [] => by simp [uniqs]
  | b :: l => by
    rw [uniqs_cons, List.mem_cons, List.mem_cons, mem_uniqs]
    simp only [List.mem_filter, bne_iff_ne, ne_eq]
    by_cases hab : a = b <;> simp [hab]
termination_by l => l.length
decreasing_by
  simp only [List.length_cons]
  exact Nat.lt_succ_of_le (l.length_filter_le _)

theorem uniqs_eq_nil {l : List String} : uniqs l = [] ↔ l = [] := by
  cases l with
  | nil => simp [uniqs]
  | cons a l => simp [uniqs_cons]

theorem groupRowsBy_cons (r : RawRow) (rest : List RawRow) :
    groupRowsBy (r :: rest)
      = (r.questionId,
          r :: rest.filter (fun x => x.questionId == r.questionId))
        :: groupRowsBy (rest.filter (fun x => x.questionId != r.questionId)) := by
  unfold groupRowsBy
  rw [List.map_cons, uniqs_cons, List.map_cons]
  congr 1
  · rw [List.filter_cons_of_pos (by simp)]
  · have hmapfilter :
        (rest.map (·.questionId)).filter (fun b => b != r.questionId)
          = (rest.filter (fun x => x.questionId != r.questionId)).map
              (·.questionId) :=
      List.filter_map _ rest
    rw [hmapfilter]
    apply List.map_congr_left
    intro q hq
    rw [mem_uniqs, List.mem_map] at hq
    obtain ⟨x, hx, rfl⟩ := hq
    rw [List.mem_filter] at hx
    have hne : x.questionId ≠ r.questionId := bne_iff_ne.mp hx.2
    congr 1
    rw [List.filter_cons_of_neg
      (by simp only [beq_iff_eq]; exact fun h => hne h.symm)]
    rw [List.filter_filter]
    apply List.filter_congr
    intro a _
    by_cases ha : a.questionId = x.questionId
    · have har : a.questionId ≠ r.questionId := by rw [ha]; exact hne
      simp [ha, har, hne]
    · simp [ha]

/-- Concatenating the row groups of `groupRowsBy` back together is a
permutation of the original rows: each row lands in exactly one group. -/
theorem groupRowsBy_flatMap_perm :
    ∀ (n : Nat) (rows : List RawRow), rows.length ≤ n →
      List.Perm ((groupRowsBy rows).flatMap Prod.snd) rows
  | _, [], _ => by simp [groupRowsBy, uniqs]
  | Nat.zero, r :: rest, h => by simp at h
  | Nat.succ n, r :: rest, h => by
    rw [groupRowsBy_cons, List.flatMap_cons]
    have hrest' :
        (rest.filter (fun x => x.questionId != r.questionId)).length ≤ n := by
      have := rest.length_filter_le (fun x => x.questionId != r.questionId)
      simp only [List.length_cons, Nat.succ_le_succ_iff] at h
      omega
    have ih := groupRowsBy_flatMap_perm n
      (rest.filter (fun x => x.questionId != r.questionId)) hrest'
    have h1 : List.Perm
        (rest.filter (fun x => x.questionId == r.questionId)
          ++ (groupRowsBy
               (rest.filter (fun x => x.questionId != r.questionId))).flatMap
               Prod.snd)
        rest := by
      refine List.Perm.trans (List.Perm.append_left _ ih) ?_
      exact List.filter_append_perm _ rest
    exact List.Perm.cons r h1

/-- Shape of the members of `groupRowsBy rows`. -/
theorem mem_groupRowsBy {rows : List RawRow} {g : String × List RawRow}
    (hg : g ∈ groupRowsBy rows) :
    g.2 = rows.filter (fun r => r.questionId == g.1) := by
  unfold groupRowsBy at hg
  rw [List.mem_map] at hg
  obtain ⟨q, _, rfl⟩ := hg
  rfl

/-- Every row of a group of `groupRowsBy rows` is an original row carrying
the group's QuestionID. -/
theorem mem_of_mem_groupRowsBy {rows : List RawRow}
    {g : String × List RawRow} (hg : g ∈ groupRowsBy rows) {r : RawRow}
    (hr : r ∈ g.2) : r ∈ rows ∧ r.questionId = g.1 := by
  rw [mem_groupRowsBy hg, List.mem_filter] at hr
  exact ⟨hr.1, by simpa using hr.2⟩

/-- Completeness of the grouping: every row appears in the group of its
QuestionID. -/
theorem exists_group_of_mem {rows : List RawRow} {r : RawRow}
    (hr : r ∈ rows) :
    (r.questionId, rows.filter (fun x => x.questionId == r.questionId))
      ∈ groupRowsBy rows ∧
      r ∈ rows.filter (fun x => x.questionId == r.questionId) := by
  constructor
  · unfold groupRowsBy
    rw [List.mem_map]
    refine ⟨r.questionId, ?_, rfl⟩
    rw [mem_uniqs, List.mem_map]
    exact ⟨r, hr, rfl⟩
  · rw [List.mem_filter]
    exact ⟨hr, by simp⟩

/-! ## Claim C6: grouping / flattening round trip -/

/-- Claim C6: for every row set in which all rows sharing a questionId
agree on questionText, grouping the rows into PollQuestion records
(`format_polls`) and then flattening each record back to one row per
response recovers exactly the original multiset of (questionId,
questionText, responseText, responsePercentage) tuples, modulo row
order. -/
theorem c6_group_flatten_round_trip (rows : List RawRow)
    (hqt : ∀ r ∈ rows, ∀ r' ∈ rows, r.questionId = r'.questionId →
      r.questionText = r'.questionText) :
    List.Perm (flattenQuestions (format_polls rows)) (rows.map rowTuple) := by
  unfold flattenQuestions format_polls
  rw [List.flatMap_map]
  have hcongr :
      ((groupRowsBy rows).flatMap (fun g =>
        (g.2.map (fun r => (r.respTxt, r.respPct))).map (fun resp =>
          (g.1, firstText g.2, resp.1, resp.2))))
        = (groupRowsBy rows).flatMap (fun g => g.2.map rowTuple) := by
    apply List.flatMap_congr
    intro g hg
    rw [List.map_map]
    apply List.map_congr_left
    intro r hr
    obtain ⟨hrrows, hrq⟩ := mem_of_mem_groupRowsBy hg hr
    cases hsnd : g.2 with
    | nil => rw [hsnd] at hr; cases hr
    | cons r0 t =>
      have hr0 : r0 ∈ g.2 := by rw [hsnd]; exact List.mem_cons_self r0 t
      obtain ⟨hr0rows, hr0q⟩ := mem_of_mem_groupRowsBy hg hr0
      have htext : r0.questionText = r.questionText :=
        hqt r0 hr0rows r hrrows (by rw [hr0q, hrq])
      simp only [Function.comp, hsnd, firstText, rowTuple]
      rw [htext, hrq]
  rw [hcongr, ← List.map_flatMap]
  exact (groupRowsBy_flatMap_perm rows.length rows le_rfl).map rowTuple

/-- Concrete input for the C6 witness: three rows over two questions, the
two `Q1` rows agreeing on their question text. -/
def c6Rows : List RawRow :=
  [{ questionId := "Q1", questionText := "Whom do you prefer?",
     begDate := 10, endDate := 12, respTxt := "Roosevelt", respPct := "49" },
   { questionId := "Q2", questionText := "Who will win?",
     begDate := 11, endDate := 13, respTxt := "Landon", respPct := "36" },
   { questionId := "Q1", questionText := "Whom do you prefer?",
     begDate := 10, endDate := 12, respTxt := "Landon", respPct := "44" }]

/-- Witness for C6 at a concrete input. -/
theorem c6_witness :
    (∀ r ∈ c6Rows, ∀ r' ∈ c6Rows, r.questionId = r'.questionId →
      r.questionText = r'.questionText)
      ∧ List.Perm (flattenQuestions (format_polls c6Rows))
          (c6Rows.map rowTuple) :=
  ⟨by decide, c6_group_flatten_round_trip c6Rows (by decide)⟩

/-! ## Claim C7: chunking -/

theorem chunksOf_nil (b : Nat) : chunksOf b ([] : List α) = [] := by
  rw [chunksOf]

theorem chunksOf_cons (b : Nat) (a : α) (l : List α) :
    chunksOf b (a :: l)
      = (a :: l.take (b - 1)) :: chunksOf b (l.drop (b - 1)) := by
  rw [chunksOf]

/-- The chunks concatenate back to the original list. -/
theorem chunksOf_flatten (b : Nat) :
    ∀ (l : List α), (chunksOf b l).flatten = l
  | [] => by rw [chunksOf_nil]; rfl
  | a :: l => by
    rw [chunksOf_cons, List.flatten_cons, chunksOf_flatten b (l.drop (b - 1))]
    rw [List.cons_append, List.take_append_drop]
termination_by l => l.length
decreasing_by
  simp only [List.length_cons, List.length_drop]
  omega

/-- Every chunk has size at most `b` (for `b ≥ 1`). -/
theorem chunksOf_length_le (b : Nat) (hb : 1 ≤ b) :
    ∀ (l : List α), ∀ c ∈ chunksOf b l, c.length ≤ b
  | [] => by rw [chunksOf_nil]; intro c hc; cases hc
  | a :: l => by
    rw [chunksOf_cons]
    intro c hc
    rcases List.mem_cons.mp hc with h | h
    · subst h
      rw [List.length_cons, List.length_take]
      omega
    · exact chunksOf_length_le b hb (l.drop (b - 1)) c h
termination_by l => l.length
decreasing_by
  simp only [List.length_cons, List.length_drop]
  omega

/-- The chunk-size profile as a function of the input length alone. -/
def lengthProfile (b : Nat) : Nat → List Nat
  | 0 => []
  | n + 1 => (min (b - 1) n + 1) :: lengthProfile b (n - (b - 1))
termination_by n => n
decreasing_by omega

theorem lengthProfile_zero (b : Nat) : lengthProfile b 0 = [] := by
  rw [lengthProfile.eq_def]

theorem lengthProfile_succ (b n : Nat) :
    lengthProfile b (n + 1)
      = (min (b - 1) n + 1) :: lengthProfile b (n - (b - 1)) := by
  rw [lengthProfile.eq_def]

/-- The list of chunk lengths depends only on the input length and `b`,
never on the elements. -/
theorem chunksOf_map_length (b : Nat) :
    ∀ (l : List α), (chunksOf b l).map List.length = lengthProfile b l.length
  | [] => by rw [chunksOf_nil, List.length_nil, lengthProfile_zero]; rfl
  | a :: l => by
    rw [chunksOf_cons, List.map_cons, chunksOf_map_length b (l.drop (b - 1))]
    simp only [List.length_cons, List.length_take, List.length_drop,
      lengthProfile_succ]
termination_by l => l.length
decreasing_by
  simp only [List.length_cons, List.length_drop]
  omega

/-- Claim C7: for every question list and every batchSize ≥ 1, the batch
classifier's chunking (`formatted_data[i:i+batch_size]`) partitions the
list into contiguous chunks of size at most batchSize whose concatenation
in order equals the original list, and chunk boundaries depend only on
list positions and batchSize, never on content. -/
theorem c7_chunk_partition {α β : Type} (b : Nat) (hb : 1 ≤ b)
    (l : List α) :
    (chunksOf b l).flatten = l
      ∧ (∀ c ∈ chunksOf b l, c.length ≤ b)
      ∧ ∀ (l' : List β), l'.length = l.length →
          (chunksOf b l').map List.length = (chunksOf b l).map List.length := by
  refine ⟨chunksOf_flatten b l, chunksOf_length_le b hb l, ?_⟩
  intro l' hlen
  rw [chunksOf_map_length, chunksOf_map_length, hlen]

/-- Witness for C7 at a concrete input. -/
theorem c7_witness :
    1 ≤ 2
      ∧ ((chunksOf 2 ["a", "b", "c"]).flatten = ["a", "b", "c"]
        ∧ (∀ c ∈ chunksOf 2 ["a", "b", "c"], c.length ≤ 2)
        ∧ ∀ (l' : List Nat), l'.length = (["a", "b", "c"] : List String).length →
            (chunksOf 2 l').map List.length
              = (chunksOf 2 ["a", "b", "c"]).map List.length) :=
  ⟨by decide, c7_chunk_partition 2 (by decide) ["a", "b", "c"]⟩

/-! ## Claim C2: verdict provenance -/

/-- Concrete question for the C2 counterexample. -/
def c2Question : PollingQuestion :=
  { questionId := "Q1", questionText := "Whom do you prefer for President?",
    responses := [("Roosevelt", "49"), ("Landon", "44")] }

/-- Concrete forged verdict for the C2 counterexample: its questionId
appears in no input chunk. -/
def c2Forged : Verdict := { questionId := "FORGED", isValid := true }

/-- Counterexample to claim C2: the classifier of src/process_polling.py
appends every verdict the service returns
(`responses.extend(response)`, line 547) with no provenance check, so a
verdict whose questionId is not in the chunk lands in the output instead
of being ignored. -/
theorem c2_counterexample :
    process_polls_isValid_flash [c2Question] 1 (fun _ => [c2Forged])
        = [c2Forged]
      ∧ c2Forged.questionId ∉ [c2Question].map (·.questionId) := by
  constructor
  · unfold process_polls_isValid_flash
    rw [chunksOf_cons]
    rw [List.take_nil, List.drop_nil, chunksOf_nil]
    rfl
  · decide

/-- Claim C2 as amended: the batch classifier of src/process_polling.py
performs no provenance filtering — its output is exactly the
concatenation of the service's per-chunk responses: every output verdict
originates from the response to some chunk, and every verdict of every
chunk's response (a forged questionId included) appears in the output. -/
theorem c2_verdicts_unfiltered (formatted : List PollingQuestion) (b : Nat)
    (service : List PollingQuestion → List Verdict) :
    (∀ v ∈ process_polls_isValid_flash formatted b service,
      ∃ c ∈ chunksOf b formatted, v ∈ service c)
      ∧ ∀ c ∈ chunksOf b formatted, ∀ v ∈ service c,
          v ∈ process_polls_isValid_flash formatted b service := by
  constructor
  · intro v hv
    unfold process_polls_isValid_flash at hv
    rw [List.mem_flatten] at hv
    obtain ⟨l, hl, hvl⟩ := hv
    rw [List.mem_map] at hl
    obtain ⟨c, hc, rfl⟩ := hl
    exact ⟨c, hc, hvl⟩
  · intro c hc v hv
    unfold process_polls_isValid_flash
    rw [List.mem_flatten]
    exact ⟨service c, List.mem_map_of_mem service hc, hv⟩

/-! ## Claim C3: partial-failure handling -/

/-- The per-chunk outcome of the src/process_polls.py classifier: a
response that fails to parse is caught and contributes nothing
(`some []`), a parsed response contributes its resolved polls unless a
schema failure kills the run (`resolveVerdicts _ _ = none`). -/
def chunkVerdicts (service : List PollQuestion → Option (List RawVerdict))
    (batch : List PollQuestion) : Option (List (PollQuestion × Bool)) :=
  match service batch with
  | none => some []
  | some raws => resolveVerdicts batch raws

/-- One live fold step is the chunk outcome appended to the accumulator
(dying when the chunk outcome is fatal). -/
theorem processChunkStep_some
    (service : List PollQuestion → Option (List RawVerdict))
    (polls : List (PollQuestion × Bool)) (batch : List PollQuestion) :
    processChunkStep service (some polls) batch
      = (chunkVerdicts service batch).map (fun res => polls ++ res) := by
  cases hsvc : service batch with
  | none => simp [processChunkStep, chunkVerdicts, hsvc]
  | some raws =>
    cases hres : resolveVerdicts batch raws with
    | none => simp [processChunkStep, chunkVerdicts, hsvc, hres]
    | some resolved => simp [processChunkStep, chunkVerdicts, hsvc, hres]

theorem process_polls_isValid_common_foldl
    (service : List PollQuestion → Option (List RawVerdict)) :
    ∀ (cs : List (List PollQuestion)) (acc : List (PollQuestion × Bool)),
      (∀ c ∈ cs, (chunkVerdicts service c).isSome) →
        cs.foldl (processChunkStep service) (some acc)
          = some (acc ++ cs.flatMap (fun c => (chunkVerdicts service c).getD []))
  | [], acc, _ => by simp
  | c :: cs, acc, hok => by
    have hc : (chunkVerdicts service c).isSome := hok c (List.mem_cons_self c cs)
    have hcs : ∀ x ∈ cs, (chunkVerdicts service x).isSome :=
      fun x hx => hok x (List.mem_cons_of_mem c hx)
    rw [List.foldl_cons, List.flatMap_cons, processChunkStep_some]
    cases hck : chunkVerdicts service c with
    | none => rw [hck] at hc; cases hc
    | some res =>
      rw [Option.map_some']
      rw [process_polls_isValid_common_foldl service cs (acc ++ res) hcs]
      rw [Option.getD_some, List.append_assoc]

/-- Claim C3 as amended: when no chunk dies of a schema failure (each
chunk's response either fails to JSON-parse — which is caught and skipped
— or resolves), the run returns the concatenation of the per-chunk
outcomes: a chunk whose response failed to parse contributes nothing
while all other chunks' verdicts are present, and the return value is the
poll list alone — no count or list of failed chunks is surfaced to the
caller (the failure is only printed).  A schema-validation failure, by
contrast, aborts the whole run (see the counterexample). -/
theorem c3_parse_failure_skips_chunk (formatted : List PollQuestion)
    (b : Nat) (service : List PollQuestion → Option (List RawVerdict))
    (hok : ∀ c ∈ chunksOf b formatted, (chunkVerdicts service c).isSome) :
    process_polls_isValid_common formatted b service
      = some ((chunksOf b formatted).flatMap
          (fun c => (chunkVerdicts service c).getD [])) := by
  unfold process_polls_isValid_common
  rw [process_polls_isValid_common_foldl service (chunksOf b formatted) [] hok]
  rw [List.nil_append]

/-- Concrete polls for the C3 theorems. -/
def c3P1 : PollQuestion :=
  { questionId := "Q1", questionText := "Whom do you prefer?",
    begDate := 0, endDate := 1, responses := [("Roosevelt", "49")] }

/-- Second concrete poll for the C3 theorems. -/
def c3P2 : PollQuestion :=
  { questionId := "Q2", questionText := "Who will win?",
    begDate := 2, endDate := 3, responses := [("Landon", "36")] }

/-- Service for the C3 counterexample: the chunk holding `Q1` returns a
verdict object missing its `isValid` field (a schema failure), the chunk
holding `Q2` parses and resolves fine. -/
def c3SvcBad : List PollQuestion → Option (List RawVerdict) := fun batch =>
  match batch with
  | [p] =>
    if p.questionId == "Q1" then some [{ questionId := some "Q1", isValid := none }]
    else some [{ questionId := some "Q2", isValid := some true }]
  | _ => none

/-- Service for the C3 witness: the chunk holding `Q1` fails to parse, the
chunk holding `Q2` parses and resolves fine. -/
def c3SvcParseFail : List PollQuestion → Option (List RawVerdict) := fun batch =>
  match batch with
  | [p] =>
    if p.questionId == "Q1" then none
    else some [{ questionId := some "Q2", isValid := some true }]
  | _ => none

theorem chunksOf_one_two (x y : α) : chunksOf 1 [x, y] = [[x], [y]] := by
  rw [chunksOf_cons]
  simp only [Nat.sub_self, List.take_zero, List.drop_zero]
  rw [chunksOf_cons]
  simp only [Nat.sub_self, List.take_nil, List.drop_nil]
  rw [chunksOf_nil]

/-- Counterexample to claim C3: in src/process_polls.py only
`json.JSONDecodeError` is caught — a chunk whose response fails *schema
validation* (here: a verdict missing `isValid`, raising an uncaught
`KeyError`) aborts the whole run, so the other chunk's verdicts are lost
and no failure list is returned, where the claim promises isolation for
schema failures too. -/
theorem c3_counterexample :
    process_polls_isValid_common [c3P1, c3P2] 1 c3SvcBad = none
      ∧ resolveVerdicts [c3P2] [{ questionId := some "Q2", isValid := some true }]
          = some [(c3P2, true)] := by
  constructor
  · unfold process_polls_isValid_common
    rw [chunksOf_one_two]
    decide
  · decide

/-- Witness for the amended C3 at a concrete run with a parse-failing
chunk. -/
theorem c3_witness :
    (∀ c ∈ chunksOf 1 [c3P1, c3P2], (chunkVerdicts c3SvcParseFail c).isSome)
      ∧ process_polls_isValid_common [c3P1, c3P2] 1 c3SvcParseFail
          = some ((chunksOf 1 [c3P1, c3P2]).flatMap
              (fun c => (chunkVerdicts c3SvcParseFail c).getD [])) := by
  have hok : ∀ c ∈ chunksOf 1 [c3P1, c3P2],
      (chunkVerdicts c3SvcParseFail c).isSome := by
    rw [chunksOf_one_two]
    decide
  exact ⟨hok, c3_parse_failure_skips_chunk [c3P1, c3P2] 1 c3SvcParseFail hok⟩

/-! ## Claims C1 and C9: the merge -/

/-- The branch the left join takes for one left row. -/
theorem leftJoinValidity_row (verdicts : List Verdict) (r : RawRow) :
    (match verdicts.filter (fun v => v.questionId == r.questionId) with
      | [] => [(r, none)]
      | ms => ms.map (fun v => (r, some v.isValid)))
      = if verdicts.filter (fun v => v.questionId == r.questionId) = []
          then [(r, (none : Option Bool))]
          else (verdicts.filter (fun v => v.questionId == r.questionId)).map
            (fun v => (r, some v.isValid)) := by
  cases verdicts.filter (fun v => v.questionId == r.questionId) with
  | nil => rfl
  | cons m ms => rfl

/-- Membership in the merged output: every element is an unchanged input
row paired with the verdict of some matching `Verdict` record. -/
theorem mem_merge_polls_with_validity {rows : List RawRow}
    {verdicts : List Verdict} {p : RawRow × Option Bool}
    (hp : p ∈ merge_polls_with_validity rows verdicts) :
    p.1 ∈ rows ∧ ∃ v ∈ verdicts,
      v.questionId = p.1.questionId ∧ p.2 = some v.isValid := by
  unfold merge_polls_with_validity leftJoinValidity at hp
  rw [List.mem_filter] at hp
  obtain ⟨hpmem, hpsome⟩ := hp
  rw [List.mem_flatMap] at hpmem
  obtain ⟨r, hr, hpr⟩ := hpmem
  rw [leftJoinValidity_row] at hpr
  by_cases hms : verdicts.filter (fun v => v.questionId == r.questionId) = []
  · rw [if_pos hms] at hpr
    rw [List.mem_singleton] at hpr
    rw [hpr] at hpsome
    simp at hpsome
  · rw [if_neg hms] at hpr
    rw [List.mem_map] at hpr
    obtain ⟨v, hv, hpv⟩ := hpr
    rw [List.mem_filter] at hv
    subst hpv
    exact ⟨hr, v, hv.1, by simpa using hv.2, rfl⟩

/-- Claim C9: every row of the merged output of
`merge_polls_with_validity` carries a non-null verdict, and a row whose
questionId received no verdict never appears in the output — it is
always dropped, unconditionally (the implementation has no dropUnmatched
parameter; `dropna(subset=['isValid'])` runs on every call). -/
theorem c9_merge_always_drops_unmatched (rows : List RawRow)
    (verdicts : List Verdict) :
    (∀ p ∈ merge_polls_with_validity rows verdicts, p.2.isSome)
      ∧ ∀ r ∈ rows, (∀ v ∈ verdicts, v.questionId ≠ r.questionId) →
          ∀ b, (r, b) ∉ merge_polls_with_validity rows verdicts := by
  constructor
  · intro p hp
    unfold merge_polls_with_validity at hp
    exact (List.mem_filter.mp hp).2
  · intro r _ hnov b hmem
    obtain ⟨_, v, hv, hvq, _⟩ := mem_merge_polls_with_validity hmem
    exact hnov v hv hvq

/-- Concrete row for the C1 counterexample. -/
def c1Row : RawRow :=
  { questionId := "Q1", questionText := "Whom do you prefer?",
    begDate := 0, endDate := 1, respTxt := "Roosevelt", respPct := "49" }

/-- Counterexample to claim C1: `merge_polls_with_validity` has no
dropUnmatched parameter — merging a one-row dataset with an empty verdict
set yields an empty output (the row is dropped by
`dropna(subset=['isValid'])`), not a one-row output with a null verdict,
so the output row count differs from the input row count. -/
theorem c1_counterexample :
    merge_polls_with_validity [c1Row] [] = []
      ∧ ([c1Row] : List RawRow).length = 1 := by
  constructor
  · rfl
  · rfl

/-- Claim C1 as amended: the merge keeps each input row unchanged and
appends exactly its verdict, but rows whose questionId has no verdict are
dropped rather than retained with a null verdict; when each questionId
has at most one verdict, the output row count equals the number of input
rows whose questionId received a verdict (not the full input row
count). -/
theorem c1_merge_schema_and_count (rows : List RawRow)
    (verdicts : List Verdict)
    (huniq : ∀ r ∈ rows,
      (verdicts.filter (fun v => v.questionId == r.questionId)).length ≤ 1) :
    (merge_polls_with_validity rows verdicts).length
        = (rows.filter (fun r =>
            verdicts.any (fun v => v.questionId == r.questionId))).length
      ∧ ∀ p ∈ merge_polls_with_validity rows verdicts,
          p.1 ∈ rows ∧ ∃ v ∈ verdicts,
            v.questionId = p.1.questionId ∧ p.2 = some v.isValid := by
  refine ⟨?_, fun p hp => mem_merge_polls_with_validity hp⟩
  induction rows with
  | nil => rfl
  | cons r rest ih =>
    have hr := huniq r (List.mem_cons_self r rest)
    have hrest : ∀ x ∈ rest,
        (verdicts.filter (fun v => v.questionId == x.questionId)).length ≤ 1 :=
      fun x hx => huniq x (List.mem_cons_of_mem r hx)
    unfold merge_polls_with_validity leftJoinValidity at ih ⊢
    rw [List.flatMap_cons, List.filter_append, List.length_append, ih hrest]
    rw [leftJoinValidity_row]
    cases hms : verdicts.filter (fun v => v.questionId == r.questionId) with
    | nil =>
      have hany : verdicts.any (fun v => v.questionId == r.questionId) = false := by
        by_contra h
        rw [Bool.not_eq_false, List.any_eq_true] at h
        obtain ⟨v, hv, hvq⟩ := h
        have hvf : v ∈ verdicts.filter (fun v => v.questionId == r.questionId) :=
          List.mem_filter.mpr ⟨hv, hvq⟩
        rw [hms] at hvf
        cases hvf
      rw [if_pos rfl]
      simp [List.filter_cons, hany]
    | cons m ms =>
      have hm : m ∈ verdicts.filter (fun v => v.questionId == r.questionId) := by
        rw [hms]; exact List.mem_cons_self m ms
      rw [List.mem_filter] at hm
      have hany : verdicts.any (fun v => v.questionId == r.questionId) = true :=
        List.any_eq_true.mpr ⟨m, hm.1, hm.2⟩
      have hone : ms = [] := by
        have h1 := hr
        rw [hms] at h1
        simp only [List.length_cons] at h1
        exact List.eq_nil_of_length_eq_zero (by omega)
      subst hone
      rw [if_neg (by simp)]
      simp [List.filter_cons, hany, Nat.add_comm]

/-! ## Claims C4, C5, C10: the reconciliation -/

theorem uniqs_nil : uniqs [] = [] := by rw [uniqs]

theorem totalQuestions_ne_zero {merged : List JoinedRow} (h : merged ≠ []) :
    totalQuestions merged ≠ 0 := by
  unfold totalQuestions
  intro hlen
  have hnil : uniqs (merged.map (·.questionId)) = [] :=
    List.eq_nil_of_length_eq_zero hlen
  rw [uniqs_eq_nil, List.map_eq_nil_iff] at hnil
  exact h hnil

theorem correctPredictions_le (merged : List JoinedRow) :
    correctPredictions merged ≤ totalQuestions merged :=
  List.length_filter_le _ _

theorem firstVerdictsAgree_of_cons {merged : List JoinedRow} {q : String}
    {r0 : JoinedRow} {t : List JoinedRow}
    (hF : merged.filter (fun r => r.questionId == q) = r0 :: t) :
    firstVerdictsAgree merged q = (r0.isValidLlm == r0.isValidFinal) := by
  unfold firstVerdictsAgree
  rw [hF]

/-- Under one-verdict-per-side-per-question consistency, all first
verdicts agree exactly when no joined row disagrees. -/
theorem correct_eq_total_iff {merged : List JoinedRow}
    (hcons : ∀ r ∈ merged, ∀ r' ∈ merged, r.questionId = r'.questionId →
      r.isValidLlm = r'.isValidLlm ∧ r.isValidFinal = r'.isValidFinal) :
    correctPredictions merged = totalQuestions merged
      ↔ disagreementRows merged = [] := by
  unfold correctPredictions totalQuestions disagreementRows
  constructor
  · intro hlen
    have hself :
        (uniqs (merged.map (·.questionId))).filter (firstVerdictsAgree merged)
          = uniqs (merged.map (·.questionId)) :=
      (List.filter_sublist _).eq_of_length hlen
    have hall := List.filter_eq_self.mp hself
    rw [List.filter_eq_nil_iff]
    intro r hr
    have hq : r.questionId ∈ uniqs (merged.map (·.questionId)) :=
      mem_uniqs.mpr (List.mem_map_of_mem _ hr)
    have hagree := hall r.questionId hq
    have hrF : r ∈ merged.filter (fun x => x.questionId == r.questionId) :=
      List.mem_filter.mpr ⟨hr, by simp⟩
    cases hF : merged.filter (fun x => x.questionId == r.questionId) with
    | nil => rw [hF] at hrF; cases hrF
    | cons r0 t =>
      rw [firstVerdictsAgree_of_cons hF] at hagree
      have hr0 : r0 ∈ merged.filter (fun x => x.questionId == r.questionId) := by
        rw [hF]; exact List.mem_cons_self r0 t
      rw [List.mem_filter] at hr0
      have hq0 : r0.questionId = r.questionId := by simpa using hr0.2
      obtain ⟨hl, hf⟩ := hcons r hr r0 hr0.1 hq0.symm
      have h00 : r0.isValidLlm = r0.isValidFinal := by simpa using hagree
      intro hbne
      rw [bne_iff_ne] at hbne
      exact hbne (by rw [hl, hf]; exact h00)
  · intro hdis
    have hall : ∀ r ∈ merged, r.isValidLlm = r.isValidFinal := by
      intro r hr
      have hnd := List.filter_eq_nil_iff.mp hdis r hr
      simpa [bne_iff_ne] using hnd
    have hself :
        (uniqs (merged.map (·.questionId))).filter (firstVerdictsAgree merged)
          = uniqs (merged.map (·.questionId)) := by
      rw [List.filter_eq_self]
      intro q hq
      rw [mem_uniqs, List.mem_map] at hq
      obtain ⟨r, hr, rfl⟩ := hq
      have hrF : r ∈ merged.filter (fun x => x.questionId == r.questionId) :=
        List.mem_filter.mpr ⟨hr, by simp⟩
      cases hF : merged.filter (fun x => x.questionId == r.questionId) with
      | nil => rw [hF] at hrF; cases hrF
      | cons r0 t =>
        rw [firstVerdictsAgree_of_cons hF]
        have hr0 : r0 ∈ merged.filter (fun x => x.questionId == r.questionId) := by
          rw [hF]; exact List.mem_cons_self r0 t
        rw [List.mem_filter] at hr0
        rw [beq_iff_eq]
        exact hall r0 hr0.1
    rw [hself]

/-- Claim C4: for every pair of datasets whose inner join is non-empty
(and carries one verdict per side per questionId, the data-model
invariant the claim's "two verdicts" presupposes), the reconciliation
result satisfies agreementRate = matches / totalDistinctQuestions * 100,
hence 0 ≤ agreementRate ≤ 100, and agreementRate = 100 iff the
disagreement list is empty. -/
theorem c4_agreement_rate (llm final : List LabeledRow)
    (hne : innerJoinShared llm final ≠ [])
    (hcons : ∀ r ∈ innerJoinShared llm final,
      ∀ r' ∈ innerJoinShared llm final, r.questionId = r'.questionId →
        r.isValidLlm = r'.isValidLlm ∧ r.isValidFinal = r'.isValidFinal) :
    ∃ rate : ℚ, (compare_llm_with_final llm final).successRate = some rate
      ∧ rate = ((compare_llm_with_final llm final).correctPredictions : ℚ)
          / ((compare_llm_with_final llm final).totalQuestions : ℚ) * 100
      ∧ 0 ≤ rate ∧ rate ≤ 100
      ∧ (rate = 100 ↔ (compare_llm_with_final llm final).disagreements = []) := by
  have ht : totalQuestions (innerJoinShared llm final) ≠ 0 :=
    totalQuestions_ne_zero hne
  have hsr : (compare_llm_with_final llm final).successRate
      = some ((correctPredictions (innerJoinShared llm final) : ℚ)
          / (totalQuestions (innerJoinShared llm final) : ℚ) * 100) := by
    unfold compare_llm_with_final
    rw [if_neg ht]
  have hcp : ((compare_llm_with_final llm final).correctPredictions : ℚ)
      = (correctPredictions (innerJoinShared llm final) : ℚ) := rfl
  have htq : ((compare_llm_with_final llm final).totalQuestions : ℚ)
      = (totalQuestions (innerJoinShared llm final) : ℚ) := rfl
  have hdg : (compare_llm_with_final llm final).disagreements
      = disagreementRows (innerJoinShared llm final) := rfl
  have ht' : (0 : ℚ) < (totalQuestions (innerJoinShared llm final) : ℚ) := by
    exact_mod_cast Nat.pos_of_ne_zero ht
  have hcle : (correctPredictions (innerJoinShared llm final) : ℚ)
      ≤ (totalQuestions (innerJoinShared llm final) : ℚ) := by
    exact_mod_cast correctPredictions_le (innerJoinShared llm final)
  refine ⟨_, hsr, by rw [hcp, htq], ?_, ?_, ?_⟩
  · exact mul_nonneg (div_nonneg (Nat.cast_nonneg _) (le_of_lt ht'))
      (by norm_num)
  · have hdiv : (correctPredictions (innerJoinShared llm final) : ℚ)
        / (totalQuestions (innerJoinShared llm final) : ℚ) ≤ 1 :=
      (div_le_one ht').mpr hcle
    calc (correctPredictions (innerJoinShared llm final) : ℚ)
          / (totalQuestions (innerJoinShared llm final) : ℚ) * 100
        ≤ 1 * 100 := mul_le_mul_of_nonneg_right hdiv (by norm_num)
      _ = 100 := one_mul 100
  · rw [hdg]
    constructor
    · intro h100
      have h1 : (correctPredictions (innerJoinShared llm final) : ℚ)
          / (totalQuestions (innerJoinShared llm final) : ℚ) * 100
            = 1 * 100 := by
        rw [one_mul]
        exact h100
      have h2 := mul_right_cancel₀ (by norm_num : (100 : ℚ) ≠ 0) h1
      have h3 := (div_eq_one_iff_eq (ne_of_gt ht')).mp h2
      have h4 : correctPredictions (innerJoinShared llm final)
          = totalQuestions (innerJoinShared llm final) := by exact_mod_cast h3
      exact (correct_eq_total_iff hcons).mp h4
    · intro hdis
      have h4 := (correct_eq_total_iff hcons).mpr hdis
      show (correctPredictions (innerJoinShared llm final) : ℚ)
          / (totalQuestions (innerJoinShared llm final) : ℚ) * 100 = 100
      rw [h4, div_self (ne_of_gt ht'), one_mul]

/-- Rows for the C4 witness and C5/C10 theorems: the spec's scenario of
two questions where the machine and the human agree on Q1 and disagree on
Q2. -/
def c4LlmRows : List LabeledRow :=
  [{ questionId := "Q1", questionText := "Whom do you prefer?",
     respTxt := "Roosevelt", respPct := "49", meta := "m1", isValid := true },
   { questionId := "Q2", questionText := "Who will win?",
     respTxt := "Landon", respPct := "36", meta := "m2", isValid := false }]

/-- Human-side rows for the C4 witness: same descriptive columns, both
verdicts true. -/
def c4FinalRows : List LabeledRow :=
  [{ questionId := "Q1", questionText := "Whom do you prefer?",
     respTxt := "Roosevelt", respPct := "49", meta := "m1", isValid := true },
   { questionId := "Q2", questionText := "Who will win?",
     respTxt := "Landon", respPct := "36", meta := "m2", isValid := true }]

/-- Witness for C4 at a concrete input. -/
theorem c4_witness :
    (innerJoinShared c4LlmRows c4FinalRows ≠ []
      ∧ ∀ r ∈ innerJoinShared c4LlmRows c4FinalRows,
          ∀ r' ∈ innerJoinShared c4LlmRows c4FinalRows,
            r.questionId = r'.questionId →
              r.isValidLlm = r'.isValidLlm ∧ r.isValidFinal = r'.isValidFinal)
      ∧ ∃ rate : ℚ,
          (compare_llm_with_final c4LlmRows c4FinalRows).successRate = some rate
          ∧ rate = ((compare_llm_with_final c4LlmRows c4FinalRows).correctPredictions : ℚ)
              / ((compare_llm_with_final c4LlmRows c4FinalRows).totalQuestions : ℚ) * 100
          ∧ 0 ≤ rate ∧ rate ≤ 100
          ∧ (rate = 100
              ↔ (compare_llm_with_final c4LlmRows c4FinalRows).disagreements = []) :=
  ⟨⟨by decide, by decide⟩,
    c4_agreement_rate c4LlmRows c4FinalRows (by decide) (by decide)⟩

/-! ### Claim C10 -/

/-- An everything-different row that joins with nothing in
`c4FinalRows`. -/
def c10Unjoinable : LabeledRow :=
  { questionId := "QX", questionText := "Totally different",
    respTxt := "Nobody", respPct := "0", meta := "other", isValid := false }

/-- Counterexample to claim C10: with zero distinct joined questions the
reconciliation does not fail — `correct_predictions` is a numpy integer
(`Series.sum()`), so dividing it by `total_questions = 0` yields `nan`
with a RuntimeWarning instead of raising `ZeroDivisionError`, and the
run completes, returning a full report whose rate is `nan` (embedded as
`none`). -/
theorem c10_counterexample :
    innerJoinShared [c10Unjoinable] c4FinalRows = []
      ∧ compare_llm_with_final [c10Unjoinable] c4FinalRows
          = { successRate := none, totalQuestions := 0,
              correctPredictions := 0, disagreements := [] } := by
  have hj : innerJoinShared [c10Unjoinable] c4FinalRows = [] := by decide
  refine ⟨hj, ?_⟩
  unfold compare_llm_with_final
  rw [hj]
  have ht : totalQuestions [] = 0 := by
    unfold totalQuestions
    rw [List.map_nil, uniqs_nil]
    rfl
  have hc : correctPredictions [] = 0 := by
    unfold correctPredictions
    rw [List.map_nil, uniqs_nil]
    rfl
  rw [ht, hc]
  rfl

/-- Claim C10 as amended: if the joined datasets contain zero distinct
questions (for example both inputs are empty or nothing joins), the rate
computation divides by zero, but because `correct_predictions` is a
numpy scalar the division evaluates to `nan` (with a RuntimeWarning)
rather than raising: the reconciliation completes normally and reports a
`nan` success rate over zero questions instead of failing with an
error. -/
theorem c10_zero_questions_nan (llm final : List LabeledRow)
    (hempty : innerJoinShared llm final = []) :
    (compare_llm_with_final llm final).successRate = none
      ∧ (compare_llm_with_final llm final).totalQuestions = 0 := by
  have h0 : totalQuestions [] = 0 := by
    unfold totalQuestions
    rw [List.map_nil, uniqs_nil]
    rfl
  constructor
  · unfold compare_llm_with_final
    rw [hempty]
    rw [if_pos h0]
  · unfold compare_llm_with_final
    rw [hempty]
    exact h0

/-- Witness for the amended C10 at a concrete input: one row on each
side, joining on nothing. -/
theorem c10_witness :
    innerJoinShared [c10Unjoinable] c4FinalRows = []
      ∧ ((compare_llm_with_final [c10Unjoinable] c4FinalRows).successRate = none
        ∧ (compare_llm_with_final [c10Unjoinable] c4FinalRows).totalQuestions = 0) :=
  ⟨by decide, c10_zero_questions_nan [c10Unjoinable] c4FinalRows (by decide)⟩

/-! ### Claim C5 -/

/-- Counterexample to claim C5: adding a row that fails to join leaves
the reconciliation result bit-for-bit unchanged — the unjoined row is
silently dropped by the inner join and no count of unjoined rows reaches
the caller (so it cannot have been "surfaced as a count"). -/
theorem c5_counterexample :
    compare_llm_with_final (c4LlmRows ++ [c10Unjoinable]) c4FinalRows
        = compare_llm_with_final c4LlmRows c4FinalRows
      ∧ c4LlmRows ++ [c10Unjoinable] ≠ c4LlmRows
      ∧ c4FinalRows.filter (fun b => sharedKeysEq c10Unjoinable b) = [] := by
  refine ⟨?_, by decide, by decide⟩
  have hjoin : innerJoinShared (c4LlmRows ++ [c10Unjoinable]) c4FinalRows
      = innerJoinShared c4LlmRows c4FinalRows := by decide
  unfold compare_llm_with_final
  rw [hjoin]

/-- Claim C5 as amended: a row of either dataset, at any position, that
fails to inner-join on the shared key columns is silently dropped: the
reconciliation result is identical with or without it, and no count of
unjoined rows is surfaced to the caller.  The first conjunct handles a
row of the llm (left) dataset joining with nothing on the final side,
the second a row of the final (right) dataset joining with nothing on
the llm side, each inserted at an arbitrary position of its dataset. -/
theorem c5_unjoined_rows_dropped
    (llm final llm1 llm2 final1 final2 : List LabeledRow) (x : LabeledRow) :
    (final.filter (fun b => sharedKeysEq x b) = [] →
      compare_llm_with_final (llm1 ++ [x] ++ llm2) final
        = compare_llm_with_final (llm1 ++ llm2) final)
    ∧ (llm.filter (fun a => sharedKeysEq a x) = [] →
      compare_llm_with_final llm (final1 ++ [x] ++ final2)
        = compare_llm_with_final llm (final1 ++ final2)) := by
  constructor
  · intro hx
    have hjoin : innerJoinShared (llm1 ++ [x] ++ llm2) final
        = innerJoinShared (llm1 ++ llm2) final := by
      unfold innerJoinShared
      simp only [List.append_assoc, List.flatMap_append, List.flatMap_cons,
        List.flatMap_nil, hx, List.map_nil, List.nil_append, List.append_nil]
    unfold compare_llm_with_final
    rw [hjoin]
  · intro hx
    have hjoin : innerJoinShared llm (final1 ++ [x] ++ final2)
        = innerJoinShared llm (final1 ++ final2) := by
      unfold innerJoinShared
      apply List.flatMap_congr
      intro a ha
      have hax : sharedKeysEq a x = false := by
        have h1 := List.filter_eq_nil_iff.mp hx a ha
        simpa using h1
      simp only [List.append_assoc, List.filter_append, List.filter_cons,
        hax, List.filter_nil, List.nil_append]
      simp
    unfold compare_llm_with_final
    rw [hjoin]

/-- Witness for the amended C5 at concrete inputs: an everywhere-failing
row inserted in the middle of the llm dataset and in the middle of the
final dataset. -/
theorem c5_witness :
    (c4FinalRows.filter (fun b => sharedKeysEq c10Unjoinable b) = []
      ∧ c4LlmRows.filter (fun a => sharedKeysEq a c10Unjoinable) = [])
      ∧ compare_llm_with_final
          (c4LlmRows.take 1 ++ [c10Unjoinable] ++ c4LlmRows.drop 1) c4FinalRows
          = compare_llm_with_final (c4LlmRows.take 1 ++ c4LlmRows.drop 1)
              c4FinalRows
      ∧ compare_llm_with_final c4LlmRows
          (c4FinalRows.take 1 ++ [c10Unjoinable] ++ c4FinalRows.drop 1)
          = compare_llm_with_final c4LlmRows
              (c4FinalRows.take 1 ++ c4FinalRows.drop 1) :=
  ⟨⟨by decide, by decide⟩,
    (c5_unjoined_rows_dropped c4LlmRows c4FinalRows (c4LlmRows.take 1)
      (c4LlmRows.drop 1) (c4FinalRows.take 1) (c4FinalRows.drop 1)
      c10Unjoinable).1 (by decide),
    (c5_unjoined_rows_dropped c4LlmRows c4FinalRows (c4LlmRows.take 1)
      (c4LlmRows.drop 1) (c4FinalRows.take 1) (c4FinalRows.drop 1)
      c10Unjoinable).2 (by decide)⟩

/-! ## Claim C8: the election-year date window of `format_polling` -/

/-- Witness for the amended C1 at a concrete input (defined here so the
C1 artifacts stay together). -/
theorem c1_witness :
    (∀ r ∈ [c1Row, { c1Row with questionId := "Q2" }],
      (([⟨"Q1", true⟩] : List Verdict).filter
        (fun v => v.questionId == r.questionId)).length ≤ 1)
      ∧ ((merge_polls_with_validity [c1Row, { c1Row with questionId := "Q2" }]
            [⟨"Q1", true⟩]).length
          = ([c1Row, { c1Row with questionId := "Q2" }].filter (fun r =>
              ([⟨"Q1", true⟩] : List Verdict).any
                (fun v => v.questionId == r.questionId))).length
        ∧ ∀ p ∈ merge_polls_with_validity
            [c1Row, { c1Row with questionId := "Q2" }] [⟨"Q1", true⟩],
            p.1 ∈ [c1Row, { c1Row with questionId := "Q2" }]
              ∧ ∃ v ∈ ([⟨"Q1", true⟩] : List Verdict),
                  v.questionId = p.1.questionId ∧ p.2 = some v.isValid) :=
  ⟨by decide,
    c1_merge_schema_and_count [c1Row, { c1Row with questionId := "Q2" }]
      [⟨"Q1", true⟩] (by decide)⟩

/-- Claim C8: for election years other than 1936 and 2024 (with the year
and its predecessor in the dictionary), the grouping step of
`format_polling` filters rows to the window from the day after the
previous election through the day before the current election: every
response of every produced question record stems from a row inside the
window (rows outside it are silently excluded), and every in-window row
does appear. -/
theorem c8_date_window (rows : List RawRow) (year : Nat)
    (h36 : year ≠ 1936) (h24 : year ≠ 2024) (dprev dcur : Int)
    (hprev : election_dates_dictionary (year - 4) = some dprev)
    (hcur : election_dates_dictionary year = some dcur) :
    (∀ q ∈ format_polling rows year, ∀ resp ∈ q.responses,
      ∃ r ∈ rows, r.questionId = q.questionId
        ∧ resp = (r.respTxt, r.respPct)
        ∧ dprev + 1 ≤ r.begDate ∧ r.endDate ≤ dcur - 1)
      ∧ ∀ r ∈ rows, dprev + 1 ≤ r.begDate → r.endDate ≤ dcur - 1 →
          ∃ q ∈ format_polling rows year, q.questionId = r.questionId
            ∧ (r.respTxt, r.respPct) ∈ q.responses := by
  have hstart : start_date year = some (dprev + 1) := by
    unfold start_date
    rw [if_pos h36, hprev]
    rfl
  have hend : end_date year = some (dcur - 1) := by
    unfold end_date
    rw [if_pos h24, hcur]
    rfl
  have hwf : windowFilter (sortRows rows) year
      = (sortRows rows).filter
          (fun r => dprev + 1 ≤ r.begDate && r.endDate ≤ dcur - 1) := by
    unfold windowFilter
    rw [hstart, hend]
  constructor
  · intro q hq resp hresp
    unfold format_polling at hq
    rw [List.mem_map] at hq
    obtain ⟨g, hg, rfl⟩ := hq
    rw [List.mem_map] at hresp
    obtain ⟨r, hr, rfl⟩ := hresp
    obtain ⟨hrw, hrq⟩ := mem_of_mem_groupRowsBy hg hr
    rw [hwf, List.mem_filter] at hrw
    obtain ⟨hrs, hrwin⟩ := hrw
    have hrrows : r ∈ rows := ((List.mergeSort_perm rows rowLe).mem_iff).mp hrs
    refine ⟨r, hrrows, hrq, rfl, ?_, ?_⟩
    · have := (Bool.and_eq_true _ _).mp hrwin
      exact of_decide_eq_true this.1
    · have := (Bool.and_eq_true _ _).mp hrwin
      exact of_decide_eq_true this.2
  · intro r hr hbeg hend'
    have hrs : r ∈ sortRows rows :=
      ((List.mergeSort_perm rows rowLe).mem_iff).mpr hr
    have hrw : r ∈ windowFilter (sortRows rows) year := by
      rw [hwf, List.mem_filter]
      exact ⟨hrs, by rw [Bool.and_eq_true]
                     exact ⟨decide_eq_true hbeg, decide_eq_true hend'⟩⟩
    obtain ⟨hgmem, hrg⟩ := exists_group_of_mem hrw
    refine ⟨{ questionId := r.questionId
              questionText := firstText ((windowFilter (sortRows rows) year).filter
                (fun x => x.questionId == r.questionId))
              responses := ((windowFilter (sortRows rows) year).filter
                (fun x => x.questionId == r.questionId)).map
                  (fun x => (x.respTxt, x.respPct)) }, ?_, rfl, ?_⟩
    · unfold format_polling
      rw [List.mem_map]
      exact ⟨_, hgmem, rfl⟩
    · rw [List.mem_map]
      exact ⟨r, hrg, rfl⟩

/-- Rows for the C8 witness: one inside the 1940 window, one outside. -/
def c8Rows : List RawRow :=
  [{ questionId := "Q1", questionText := "Whom do you prefer?",
     begDate := toDay 1937 5 1, endDate := toDay 1937 5 3,
     respTxt := "Roosevelt", respPct := "49" },
   { questionId := "Q2", questionText := "Old question",
     begDate := toDay 1935 5 1, endDate := toDay 1935 5 3,
     respTxt := "Landon", respPct := "36" }]

/-- Witness for C8 at the 1940 election. -/
theorem c8_witness :
    ((1940 : Nat) ≠ 1936 ∧ (1940 : Nat) ≠ 2024
      ∧ election_dates_dictionary (1940 - 4) = some (toDay 1936 11 3)
      ∧ election_dates_dictionary 1940 = some (toDay 1940 11 5))
      ∧ ((∀ q ∈ format_polling c8Rows 1940, ∀ resp ∈ q.responses,
          ∃ r ∈ c8Rows, r.questionId = q.questionId
            ∧ resp = (r.respTxt, r.respPct)
            ∧ toDay 1936 11 3 + 1 ≤ r.begDate
            ∧ r.endDate ≤ toDay 1940 11 5 - 1)
        ∧ ∀ r ∈ c8Rows, toDay 1936 11 3 + 1 ≤ r.begDate →
            r.endDate ≤ toDay 1940 11 5 - 1 →
              ∃ q ∈ format_polling c8Rows 1940, q.questionId = r.questionId
                ∧ (r.respTxt, r.respPct) ∈ q.responses) :=
  ⟨⟨by decide, by decide, by decide, by decide⟩,
    c8_date_window c8Rows 1940 (by decide) (by decide) (toDay 1936 11 3)
      (toDay 1940 11 5) (by decide) (by decide)⟩

end ElectionForecast
